import Mathlib

/-!
Verification development for the ChainSync-Agents repository.

Shallow embedding of the code under `src/chainsync/` (agent orchestrator,
security utilities, API retry client, database repositories, webhook
handler) together with proofs settling the frozen claims C1-C10.

Conventions used throughout:
* Python strings are Lean `String`s; raw byte strings are `List ℕ`
  (each entry one byte value).
* Python floats used as scores are modelled as `ℚ`; instants handed to the
  rate limiter (`time.time()`) are modelled at integer resolution as `ℤ`.
* Fallible code returns `Except`; raised `HTTPException`s become `.error`
  values carrying the status code.
* `async` control flow is strictly sequential in the source workflows, so
  awaited calls are monadic binds in `Except`; external collaborators
  (LLM calls, HTTP services) are parameters of the embedded workflow.
-/

namespace ChainSync

/-! ## Meeting-context agent (spec-modelled)

`MeetingContextAgent` is imported by `agent_orchestrator.py` and exercised by
`tests/test_meeting_context_agent.py`, but its implementation is not present
under `src/` (only its callers and tests are).  The definitions in this
section are therefore modelled from the spec (§4.3 UrgencyCalculator,
§4.4 AttendeeResolver, §8 testable properties) and from the shape the tests
require (an `alert_types` table with `severity_weight`, `category` and
`typical_attendees` per alert type). -/

/-- Modelled from the spec: one entry of the agent's `alert_types` table.
The tests require each entry to carry a `severity_weight`, a `category`
and a `typical_attendees` list. -/
structure AlertTypeInfo where
  severity_weight : ℚ
  category : String
  typical_attendees : List String
deriving DecidableEq

/-- Modelled from the spec: the `alert_types` table with the seven alert
types the tests enumerate.  The spec fixes the base attendee lists for
`system_failure`, `compliance_violation` and `security_incident` (§4.4) and
says security/compliance types bias the urgency score upward (§4.3); the
remaining entries are unconstrained by the spec beyond being duplicate-free
role lists with weight that keeps every severity inside its band. -/
def alert_types : List (String × AlertTypeInfo) :=
  [("compliance_violation", ⟨11/10, "compliance", ["Compliance Officer", "Legal"]⟩),
   ("system_failure", ⟨1, "operations", ["DevOps", "SRE"]⟩),
   ("performance_degradation", ⟨1, "operations", ["DevOps", "Engineering Lead"]⟩),
   ("security_incident", ⟨11/10, "security", ["Security Team", "CISO"]⟩),
   ("data_quality_issue", ⟨1, "data", ["Data Team", "Engineering Lead"]⟩),
   ("integration_failure", ⟨1, "operations", ["DevOps", "Integration Team"]⟩),
   ("capacity_warning", ⟨1, "operations", ["DevOps", "Infrastructure Team"]⟩)]

/-- Lookup in the `alert_types` table (Python `self.alert_types.get(alert_type)`). -/
def lookup_alert_type (t : String) : Option AlertTypeInfo :=
  (alert_types.find? (fun p => p.1 = t)).map (·.2)

/-- Modelled from the spec: the alert-type weight nudging the base score;
defaults to `1` for unknown types. -/
def alert_type_weight (t : String) : ℚ :=
  ((lookup_alert_type t).map (·.severity_weight)).getD 1

/-- Category of an alert type, `"general"` for unknown types. -/
def alert_type_category (t : String) : String :=
  ((lookup_alert_type t).map (·.category)).getD "general"

/-- Base attendee list of an alert type, `[]` for unknown types. -/
def typical_attendees_of (t : String) : List String :=
  ((lookup_alert_type t).map (·.typical_attendees)).getD []

/-- Modelled from the spec (§4.3): base score per severity,
critical = 0.9, high = 0.7, medium = 0.45, low = 0.2 (unknown severities
fall back to the low base). -/
def severity_base_score : String → ℚ
  | "critical" => 9/10
  | "high" => 7/10
  | "medium" => 45/100
  | "low" => 2/10
  | _ => 2/10

/-- Modelled from the spec (§4.3): final score = base score nudged by the
alert-type weight, clamped into [0,1]. -/
def urgency_score (severity alert_type : String) : ℚ :=
  min 1 (severity_base_score severity * alert_type_weight alert_type)

/-- Modelled from the spec (§4.3): the level is derived from the final score
via the band thresholds (≥0.8 CRITICAL, ≥0.6 HIGH, ≥0.4 MEDIUM, else LOW). -/
def urgency_level (score : ℚ) : String :=
  if 8/10 ≤ score then "CRITICAL"
  else if 6/10 ≤ score then "HIGH"
  else if 4/10 ≤ score then "MEDIUM"
  else "LOW"

/-- Modelled from the spec (§4.3): recommended response time per level. -/
def level_response_time : String → String
  | "CRITICAL" => "< 1 hour"
  | "HIGH" => "< 4 hours"
  | "MEDIUM" => "< 1 business day"
  | _ => "< 1 week"

/-- The urgency record `{level, score, recommended_response_time}`. -/
structure Urgency where
  level : String
  score : ℚ
  recommended_response_time : String
deriving DecidableEq

/-- Modelled from the spec: `MeetingContextAgent._calculate_urgency`
restricted to the fields of the alert it reads (severity, alert_type). -/
def calculate_urgency (severity alert_type : String) : Urgency :=
  let s := urgency_score severity alert_type
  let lvl := urgency_level s
  ⟨lvl, s, level_response_time lvl⟩

/-- Append an element to a role list only if it is absent. -/
def append_if_absent (l : List String) (x : String) : List String :=
  if x ∈ l then l else l ++ [x]

/-- First escalation rule of `_suggest_attendees`: severity ∈ {critical,
high} appends `"Management"` to the base list if absent. -/
def attendees_with_mgmt (alert_type severity : String) : List String :=
  if severity = "critical" ∨ severity = "high" then
    append_if_absent (typical_attendees_of alert_type) "Management"
  else typical_attendees_of alert_type

/-- Modelled from the spec (§4.4): `MeetingContextAgent._suggest_attendees`.
Base attendees in declared order, then escalation rules, each appending if
absent: severity ∈ {critical, high} appends `"Management"`; additionally if
the alert type is `security_incident` / `compliance_violation` or its
category is compliance/security, `"Executive Sponsor"` is appended. -/
def suggest_attendees (alert_type severity : String) : List String :=
  if (severity = "critical" ∨ severity = "high") ∧
      (alert_type = "security_incident" ∨ alert_type = "compliance_violation" ∨
       alert_type_category alert_type = "compliance" ∨
       alert_type_category alert_type = "security") then
    append_if_absent (attendees_with_mgmt alert_type severity) "Executive Sponsor"
  else attendees_with_mgmt alert_type severity

/-- The four fixed duration buckets (§4.4). -/
def duration_buckets : List String :=
  ["15 minutes", "30 minutes", "45 minutes", "60 minutes"]

/-- Modelled from the spec (§4.4): per-severity floor bucket index
(low→0, medium→1, high→2, critical→3; unknown severities at the low floor). -/
def severity_floor_index : String → ℕ
  | "critical" => 3
  | "high" => 2
  | "medium" => 1
  | _ => 0

/-- Modelled from the spec (§4.4): the bucket index, the severity floor
bumped one bucket (capped) when many systems are affected — affected-system
count may only increase, never decrease, the bucket. -/
def duration_index (severity : String) (system_count : ℕ) : ℕ :=
  min 3 (severity_floor_index severity + (if 3 < system_count then 1 else 0))

/-- Modelled from the spec: `MeetingContextAgent._recommend_duration`
restricted to the fields it reads (severity, affected_systems). -/
def recommend_duration (severity : String) (affected_systems : List String) : String :=
  duration_buckets.getD (duration_index severity affected_systems.length) "15 minutes"

/-- Rank of a duration bucket inside the fixed bucket list, used to state
monotonicity of `recommend_duration`. -/
def bucket_rank (s : String) : ℕ := duration_buckets.indexOf s

/-! ## Retry client (`api_clients.retry_with_backoff`) -/

/-- Outcome of one invocation of the wrapped async operation: success, a
transient failure (`httpx.TimeoutException` / `NetworkError` /
`ConnectError`), or an `httpx.HTTPStatusError` with the response status. -/
inductive CallOutcome where
  | ok (value : ℕ)
  | transientErr
  | httpStatusErr (code : ℕ)
deriving DecidableEq

/-- Whether the loop treats a failure outcome as retryable: transient
network failures and HTTP 5xx (status ≥ 500). -/
def retryable : CallOutcome → Bool
  | .ok _ => false
  | .transientErr => true
  | .httpStatusErr code => !(code < 500)

/-- The body of `retry_with_backoff`'s `for attempt in range(max_retries+1)`
loop: `attempt` is the current attempt index, the second argument the number
of loop iterations still available.  Returns the outcome (success value or
the raised exception) together with the number of invocations of the
operation.  The sleep/backoff bookkeeping does not affect the outcome and
is omitted. -/
def retry_loop (f : ℕ → CallOutcome) (attempt : ℕ) : ℕ → Except CallOutcome ℕ × ℕ
  | 0 => (.error .transientErr, 0)
  | r + 1 =>
    match f attempt with
    | .ok v => (.ok v, 1)
    | .transientErr =>
      if r = 0 then (.error .transientErr, 1)
      else ((retry_loop f (attempt + 1) r).1, (retry_loop f (attempt + 1) r).2 + 1)
    | .httpStatusErr code =>
      if code < 500 then (.error (.httpStatusErr code), 1)
      else if r = 0 then (.error (.httpStatusErr code), 1)
      else ((retry_loop f (attempt + 1) r).1, (retry_loop f (attempt + 1) r).2 + 1)

/-- `api_clients.retry_with_backoff`: run the operation, retrying up to
`max_retries` times on transient/5xx failures; 4xx (any status < 500)
raises immediately; the attempt sequence is `0, 1, ..., max_retries`. -/
def retry_with_backoff (f : ℕ → CallOutcome) (max_retries : ℕ) :
    Except CallOutcome ℕ × ℕ :=
  retry_loop f 0 (max_retries + 1)

/-! ## Rate limiting (`security.py`)

`rate_limit_check` keyed by client IP over the pluggable store; the
in-memory store (`InMemoryRateLimitStore`) is a dict from IP to a list of
request timestamps, a missing key being indistinguishable from the empty
list.  Instants are modelled at integer resolution, where the `int()` cast
in the retry-after computation is the identity. -/

/-- The in-memory rate-limit store: client IP → recorded request timestamps. -/
abbrev RLStore : Type := String → List ℤ

/-- `InMemoryRateLimitStore.get_requests`: filter the client's entries to
the in-window ones and write the filtered list back. -/
def get_requests (store : RLStore) (client_ip : String) (window_seconds now : ℤ) :
    List ℤ × RLStore :=
  ((store client_ip).filter (fun ts => now - ts < window_seconds),
   fun k => if k = client_ip then (store client_ip).filter (fun ts => now - ts < window_seconds)
            else store k)

/-- `InMemoryRateLimitStore.add_request`. -/
def add_request (store : RLStore) (client_ip : String) (ts : ℤ) : RLStore :=
  fun k => if k = client_ip then store k ++ [ts] else store k

/-- `InMemoryRateLimitStore.cleanup_old_entries` (deleting an emptied key
and mapping it to the empty list coincide in this model). -/
def cleanup_old_entries (store : RLStore) (window_seconds now : ℤ) : RLStore :=
  fun k => (store k).filter (fun ts => now - ts < window_seconds)

/-- Python `min(request_times)` with the `if request_times else current_time`
fallback used by the source. -/
def list_min (l : List ℤ) (dflt : ℤ) : ℤ :=
  match l with
  | [] => dflt
  | x :: xs => xs.foldl min x

/-- The HTTP 429 payload raised by `rate_limit_check`: `retry_after` is the
value interpolated into the detail message, `retry_after_header` the
`Retry-After` header value `max(1, retry_after)`. -/
structure RateLimitExceeded where
  status_code : ℕ
  retry_after : ℤ
  retry_after_header : ℤ
deriving DecidableEq

/-- `security.rate_limit_check` acting on an explicit store (the module
global `rate_limit_store`).  The updated store is returned alongside the
outcome: the pruning performed by `get_requests` persists even when the
request is rejected.  The probabilistic `random.randint(1, 100) == 1`
cleanup trigger on the success path is modelled by the `do_cleanup` flag. -/
def rate_limit_check (store : RLStore) (client_ip : String) (max_requests : ℕ)
    (window_seconds now : ℤ) (do_cleanup : Bool) :
    Except RateLimitExceeded Unit × RLStore :=
  if max_requests ≤ (get_requests store client_ip window_seconds now).1.length then
    (.error ⟨429,
        window_seconds - (now - list_min (get_requests store client_ip window_seconds now).1 now),
        max 1 (window_seconds -
          (now - list_min (get_requests store client_ip window_seconds now).1 now))⟩,
      (get_requests store client_ip window_seconds now).2)
  else
    (.ok (),
      if do_cleanup then
        cleanup_old_entries
          (add_request (get_requests store client_ip window_seconds now).2 client_ip now)
          window_seconds now
      else add_request (get_requests store client_ip window_seconds now).2 client_ip now)

/-- Sequential runner: one `rate_limit_check` per `(time, cleanup-flag)`
pair, stopping at the first rejection. -/
def run_rate_limit_calls (store : RLStore) (client_ip : String) (max_requests : ℕ)
    (window_seconds : ℤ) : List (ℤ × Bool) → Option RLStore
  | [] => some store
  | (t, c) :: rest =>
    match rate_limit_check store client_ip max_requests window_seconds t c with
    | (.ok _, store1) => run_rate_limit_calls store1 client_ip max_requests window_seconds rest
    | (.error _, _) => none

/-! ## Agent orchestrator: alert-to-meeting workflow (`agent_orchestrator.py`)

Workflow steps are strictly sequential awaited calls; in the embedding an
awaited call is a monadic bind in `Except`, so a raised exception in an
awaited step is an `.error` that propagates to the workflow's caller.  The
LLM-backed agent bodies are external collaborators and enter as parameters. -/

/-- The fields of the `alert_data` dict the workflow reads. -/
structure AlertData where
  alert_id : Option String
  alert_type : Option String
  severity : Option String
  description : Option String
deriving DecidableEq

/-- The fields of the `meeting_data` dict the workflow reads and fills. -/
structure MeetingData where
  meeting_id : Option String
  title : Option String
  scheduled_time : Option String
deriving DecidableEq

/-- Python `str.title()`: capitalize each whitespace-separated word. -/
def titlecase_words (s : String) : String :=
  String.intercalate " " ((s.splitOn " ").map String.capitalize)

/-- Step (a) of the workflow: auto-fill missing meeting fields
(`agent_orchestrator.py` lines 386-394): `meeting_id` defaults to a
generated token, `title` to `"[SEVERITY] Alert Type Review"`,
`scheduled_time` to the current instant. -/
def autofill_meeting (alert : AlertData) (m : MeetingData) (gen_token now_iso : String) :
    MeetingData :=
  { meeting_id := some (m.meeting_id.getD gen_token),
    title := some (m.title.getD
      ("[" ++ (alert.severity.getD "medium").toUpper ++ "] "
        ++ titlecase_words ((alert.alert_type.getD "Unknown").replace "_" " ")
        ++ " Review")),
    scheduled_time := some (m.scheduled_time.getD now_iso) }

/-- Root-cause-analysis result fields consumed by the workflow. -/
structure RcaResult where
  root_cause : String
  recommendations : List String
deriving DecidableEq

/-- Compliance-check result fields consumed by the workflow. -/
structure ComplianceResult where
  overall_status : String
  violations : List String
deriving DecidableEq

/-- The enriched alert handed to the meeting-context agent (lines 405-421). -/
structure EnrichedAlert where
  base : AlertData
  root_cause_analysis : String
  recommendations : List String
  compliance_implications : Option ComplianceResult
deriving DecidableEq

/-- The agent calls awaited by `_alert_to_meeting_workflow`, as
`Except`-returning functions.  A raised exception in an awaited call is an
`.error`; there is no try/except inside the workflow, so every bind
propagates it. -/
structure AgentEnv (ε : Type) where
  analyze_failure : AlertData → Except ε RcaResult
  check_compliance : AlertData → String → Except ε ComplianceResult
  process_slotify_meeting : MeetingData → EnrichedAlert → Except ε String
  learn_from_interaction : String → Except ε Unit
  explain_meeting : Option String → Except ε String

/-- The combined result dict of the workflow (lines 438-447). -/
structure WorkflowResult where
  workflow : String
  alert_id : Option String
  meeting_id : Option String
  root_cause_analysis : RcaResult
  compliance_check : ComplianceResult
  meeting_context : String
  meeting_explanation : String
deriving DecidableEq

/-- `AgentOrchestrator._alert_to_meeting_workflow` (lines 363-447):
auto-fill, RCA, compliance check on the enriched alert, meeting context,
then — decisive for C7 — an `await` of the learning agent's
`learn_from_interaction` (lines 430-436) with no exception guard, then
`explain_meeting`, then the combined result.  (The fire-and-forget pattern
`asyncio.create_task` appears in `_learn_from_interaction`, line 184, which
serves `route_request`, not this workflow.) -/
def alert_to_meeting_workflow {ε : Type} (env : AgentEnv ε) (alert : AlertData)
    (meeting : MeetingData) (gen_token now_iso : String) : Except ε WorkflowResult :=
  match env.analyze_failure alert with
  | .error err => .error err
  | .ok rca =>
    match env.check_compliance alert rca.root_cause with
    | .error err => .error err
    | .ok comp =>
      match env.process_slotify_meeting (autofill_meeting alert meeting gen_token now_iso)
          { base := alert, root_cause_analysis := rca.root_cause,
            recommendations := rca.recommendations, compliance_implications := some comp } with
      | .error err => .error err
      | .ok ctx =>
        match env.learn_from_interaction
            ("Alert: " ++ (alert.alert_type.getD "None") ++ " - "
              ++ (alert.description.getD "")) with
        | .error err => .error err
        | .ok _ =>
          match env.explain_meeting
              (autofill_meeting alert meeting gen_token now_iso).meeting_id with
          | .error err => .error err
          | .ok expl =>
            .ok { workflow := "alert_to_meeting", alert_id := alert.alert_id,
                  meeting_id := (autofill_meeting alert meeting gen_token now_iso).meeting_id,
                  root_cause_analysis := rca, compliance_check := comp,
                  meeting_context := ctx, meeting_explanation := expl }

/-! ## Fan-out execution (`AgentOrchestrator.execute_parallel_agents`) -/

/-- The keys of the orchestrator's `self.agents` registry (lines 34-42);
`get_agent` returns `None` for every other name. -/
def orchestrator_agents : List String :=
  ["continuous_learning", "root_cause_analysis", "natural_language_query",
   "compliance_autopilot", "memory_enabled", "multi_step_reasoning", "meeting_context"]

/-- One entry of the `agent_tasks` argument. -/
structure AgentTask where
  agent_name : String
  request_data : String
deriving DecidableEq

/-- One aggregated result: a normal result payload, or the inline
`{'error': str(e)}` marker produced for a failed task. -/
inductive ParallelResult where
  | payload (r : String)
  | errorMarker (msg : String)
deriving DecidableEq

/-- `asyncio.gather(*tasks, return_exceptions=True)` followed by the list
comprehension converting exceptions to inline error markers (lines
493-498). -/
def gather_results (outcomes : List (Except String String)) : List ParallelResult :=
  outcomes.map fun r =>
    match r with
    | .ok v => .payload v
    | .error e => .errorMarker e

/-- `AgentOrchestrator.execute_parallel_agents` (lines 472-498): build the
task list with `if agent:` — a task naming an unregistered agent is skipped,
receiving no error marker — then gather preserving task order.  `run` stands
for `_execute_agent_request`'s outcome on a task (`.error` when the task's
execution fails). -/
def execute_parallel_agents (run : AgentTask → Except String String)
    (agent_tasks : List AgentTask) : List ParallelResult :=
  gather_results
    ((agent_tasks.foldl
        (fun acc task => if task.agent_name ∈ orchestrator_agents then acc ++ [task] else acc)
        []).map run)

/-! ## Alert persistence (`database.py`, `webhook_server.py`) -/

/-- The columns of `AlertRecord` the C8 invariant concerns, with the model
defaults (`meeting_created = Column(Boolean, default=False)`, `meeting_id`
nullable with no default). -/
structure AlertRow where
  alert_id : String
  alert_type : String := ""
  severity : String := ""
  meeting_created : Bool := false
  meeting_id : Option String := none
deriving DecidableEq

/-- The C8 invariant: `meeting_created = true` iff `meeting_id` non-null. -/
def alert_invariant (a : AlertRow) : Prop :=
  a.meeting_created = true ↔ a.meeting_id ≠ none

/-- `AlertRepository.create`: insert one row. -/
def alert_repo_create (db : List AlertRow) (a : AlertRow) : List AlertRow := db ++ [a]

/-- Update the first row matching the predicate (SQLAlchemy `.first()`),
leaving the table unchanged when nothing matches. -/
def update_first (db : List AlertRow) (p : AlertRow → Bool) (f : AlertRow → AlertRow) :
    List AlertRow :=
  match db with
  | [] => []
  | x :: xs => if p x then f x :: xs else x :: update_first xs p f

/-- `AlertRepository.update_meeting_info` (database.py lines 222-230):
fetch by alert_id and, when found, set `meeting_created := True` and
`meeting_id` together. -/
def update_meeting_info (db : List AlertRow) (aid mid : String) : List AlertRow :=
  update_first db (fun a => a.alert_id = aid)
    (fun a => { a with meeting_created := true, meeting_id := some mid })

/-- The external meeting-creation response fields the webhook handler reads
(`slotify_meeting.get('meeting_id')`, `.get('meeting_url', '')`). -/
structure SlotifyMeetingResp where
  meeting_id : Option String
  meeting_url : Option String
deriving DecidableEq

/-- The alert row built by `receive_chainsync_alert` (webhook_server.py
lines 271-284): `meeting_created` is persisted as `True` together with the
`meeting_id` captured from the external meeting-creation result. -/
def webhook_alert_row (alert_id alert_type severity : String)
    (slotify : SlotifyMeetingResp) : AlertRow :=
  { alert_id := alert_id, alert_type := alert_type, severity := severity,
    meeting_created := true, meeting_id := slotify.meeting_id }

/-! ## Webhook signatures (`security.py`)

`generate_webhook_signature` / `verify_webhook_signature` call
`hmac.new(secret, message, hashlib.sha256).hexdigest()`; the hash is
embedded in full (FIPS 180-4 SHA-256 over byte strings, words as naturals
reduced mod 2^32).  Byte strings are `List ℕ`; `"."` is byte 46. -/

/-- 2^32, the word modulus. -/
def M32 : ℕ := 4294967296

/-- Right-rotation of a 32-bit word. -/
def rotWordRight (x n : ℕ) : ℕ := ((x >>> n) ||| (x <<< (32 - n))) % M32

/-- Bitwise complement of a 32-bit word. -/
def not32 (x : ℕ) : ℕ := x ^^^ 4294967295

/-- SHA-256 `Ch`. -/
def chooseBits (x y z : ℕ) : ℕ := (x &&& y) ^^^ (not32 x &&& z)

/-- SHA-256 `Maj`. -/
def majorityBits (x y z : ℕ) : ℕ := (x &&& y) ^^^ (x &&& z) ^^^ (y &&& z)

/-- SHA-256 big Σ₀. -/
def sumA0 (x : ℕ) : ℕ := rotWordRight x 2 ^^^ rotWordRight x 13 ^^^ rotWordRight x 22

/-- SHA-256 big Σ₁. -/
def sumA1 (x : ℕ) : ℕ := rotWordRight x 6 ^^^ rotWordRight x 11 ^^^ rotWordRight x 25

/-- SHA-256 small σ₀. -/
def sumB0 (x : ℕ) : ℕ := rotWordRight x 7 ^^^ rotWordRight x 18 ^^^ (x >>> 3)

/-- SHA-256 small σ₁. -/
def sumB1 (x : ℕ) : ℕ := rotWordRight x 17 ^^^ rotWordRight x 19 ^^^ (x >>> 10)

/-- The 64 SHA-256 round constants. -/
def sha_K : List ℕ :=
  [1116352408, 1899447441, 3049323471, 3921009573, 961987163, 1508970993,
   2453635748, 2870763221, 3624381080, 310598401, 607225278, 1426881987,
   1925078388, 2162078206, 2614888103, 3248222580, 3835390401, 4022224774,
   264347078, 604807628, 770255983, 1249150122, 1555081692, 1996064986,
   2554220882, 2821834349, 2952996808, 3210313671, 3336571891, 3584528711,
   113926993, 338241895, 666307205, 773529912, 1294757372, 1396182291,
   1695183700, 1986661051, 2177026350, 2456956037, 2730485921, 2820302411,
   3259730800, 3345764771, 3516065817, 3600352804, 4094571909, 275423344,
   430227734, 506948616, 659060556, 883997877, 958139571, 1322822218,
   1537002063, 1747873779, 1955562222, 2024104815, 2227730452, 2361852424,
   2428436474, 2756734187, 3204031479, 3329325298]

/-- The eight SHA-256 working variables. -/
structure Sha256State where
  a : ℕ
  b : ℕ
  c : ℕ
  d : ℕ
  e : ℕ
  f : ℕ
  g : ℕ
  h : ℕ
deriving DecidableEq

/-- The SHA-256 initial hash value. -/
def sha_init : Sha256State :=
  ⟨1779033703, 3144134277, 1013904242, 2773480762,
   1359893119, 2600822924, 528734635, 1541459225⟩

/-- One SHA-256 compression round. -/
def sha_round (st : Sha256State) (k w : ℕ) : Sha256State :=
  let t1 := (st.h + sumA1 st.e + chooseBits st.e st.f st.g + k + w) % M32
  let t2 := (sumA0 st.a + majorityBits st.a st.b st.c) % M32
  ⟨(t1 + t2) % M32, st.a, st.b, st.c, (st.d + t1) % M32, st.e, st.f, st.g⟩

/-- Extend the 16 block words to the 64-entry message schedule. -/
def sha_extend (ws : List ℕ) : List ℕ :=
  (List.range 48).foldl
    (fun w _ =>
      w ++ [(sumB1 (w.getD (w.length - 2) 0) + w.getD (w.length - 7) 0
        + sumB0 (w.getD (w.length - 15) 0) + w.getD (w.length - 16) 0) % M32])
    ws

/-- Big-endian word from four bytes. -/
def bytesToWord (bs : List ℕ) : ℕ := bs.foldl (fun acc b => acc * 256 + b) 0

/-- The sixteen 32-bit words of one 64-byte block. -/
def blockWords (block : List ℕ) : List ℕ :=
  (List.range 16).map (fun i => bytesToWord ((block.drop (4 * i)).take 4))

/-- SHA-256 compression of one block. -/
def sha_compress (st : Sha256State) (block : List ℕ) : Sha256State :=
  let fin := (sha_K.zip (sha_extend (blockWords block))).foldl
    (fun s kw => sha_round s kw.1 kw.2) st
  ⟨(st.a + fin.a) % M32, (st.b + fin.b) % M32, (st.c + fin.c) % M32, (st.d + fin.d) % M32,
   (st.e + fin.e) % M32, (st.f + fin.f) % M32, (st.g + fin.g) % M32, (st.h + fin.h) % M32⟩

/-- SHA-256 padding: 0x80, zeros, 8-byte big-endian bit length. -/
def sha_pad (msg : List ℕ) : List ℕ :=
  msg ++ [128] ++ List.replicate ((64 - (msg.length + 9) % 64) % 64) 0
    ++ (List.range 8).map (fun i => ((8 * msg.length) >>> (8 * (7 - i))) % 256)

/-- Split into 64-byte blocks (fuel-based so the kernel can evaluate it;
`fuel ≥ l.length` always holds at the call site). -/
def chunk64 : ℕ → List ℕ → List (List ℕ)
  | 0, _ => []
  | _, [] => []
  | fuel + 1, l => l.take 64 :: chunk64 fuel (l.drop 64)

/-- Serialize the final state to the 32-byte digest. -/
def wordBytes (w : ℕ) : List ℕ :=
  [(w >>> 24) % 256, (w >>> 16) % 256, (w >>> 8) % 256, w % 256]

/-- Digest bytes of a final state. -/
def sha_final (st : Sha256State) : List ℕ :=
  wordBytes st.a ++ wordBytes st.b ++ wordBytes st.c ++ wordBytes st.d
    ++ wordBytes st.e ++ wordBytes st.f ++ wordBytes st.g ++ wordBytes st.h

/-- SHA-256 of a byte string. -/
def sha256 (msg : List ℕ) : List ℕ :=
  sha_final ((chunk64 (sha_pad msg).length (sha_pad msg)).foldl sha_compress sha_init)

/-- HMAC key normalization: hash keys longer than the 64-byte block, then
zero-pad to the block size. -/
def hmac_key_block (key : List ℕ) : List ℕ :=
  (if 64 < key.length then sha256 key else key) ++
    List.replicate (64 - (if 64 < key.length then sha256 key else key).length) 0

/-- HMAC-SHA256 over byte strings (`hmac.new(key, msg, hashlib.sha256)`). -/
def hmacSha256 (key msg : List ℕ) : List ℕ :=
  sha256 (((hmac_key_block key).map (fun b => b ^^^ 92))
    ++ sha256 (((hmac_key_block key).map (fun b => b ^^^ 54)) ++ msg))

/-- One lowercase hex digit as an ASCII byte. -/
def hexDigit (n : ℕ) : ℕ := if n < 10 then 48 + n else 87 + n

/-- Lowercase hex encoding of a digest (`.hexdigest()`), as ASCII bytes. -/
def hexBytes (bs : List ℕ) : List ℕ :=
  (bs.map (fun b => [hexDigit (b / 16), hexDigit (b % 16)])).flatten

/-- Decimal rendering of a natural number (`str(int(time.time()))`) as
ASCII digit bytes. -/
def renderNat (n : ℕ) : List ℕ :=
  if n = 0 then [48] else ((Nat.digits 10 n).map (fun d => d + 48)).reverse

/-- Python `int(timestamp)` on the unsigned digit strings this system
produces; any other byte string raises `ValueError` (modelled as `none`,
surfacing as the handler's 400 branch). -/
def parseNat? (bs : List ℕ) : Option ℕ :=
  if bs ≠ [] ∧ bs.all (fun b => 48 ≤ b ∧ b ≤ 57) then
    some (Nat.ofDigits 10 ((bs.map (fun b => b - 48)).reverse))
  else none

/-- The error raised by `verify_webhook_signature` (HTTPException status and
detail). -/
structure VerifyError where
  status_code : ℕ
  detail : String
deriving DecidableEq

/-- `security.verify_webhook_signature` over byte strings.  `cfg_secret` is
`Config.WEBHOOK_SECRET_KEY` (`[]` = unset/falsy, verification disabled);
`signature` and `timestamp` are the two headers (`none` = missing or empty,
both falsy in the source); `now` is `int(time.time())`.  The signed message
is `timestamp ++ "." ++ body`; the `hmac.compare_digest` constant-time
comparison is functionally byte-string equality. -/
def verify_webhook_signature (cfg_secret : List ℕ) (request_body : List ℕ)
    (signature : Option (List ℕ)) (timestamp : Option (List ℕ)) (now : ℕ) :
    Except VerifyError Bool :=
  if cfg_secret = [] then .ok true
  else
    match signature, timestamp with
    | some sig, some ts =>
      match parseNat? ts with
      | none => .error ⟨400, "Invalid timestamp format"⟩
      | some request_time =>
        if 300 < ((now : ℤ) - request_time).natAbs then
          .error ⟨401, "Request timestamp too old. Possible replay attack."⟩
        else if sig = hexBytes (hmacSha256 cfg_secret (ts ++ [46] ++ request_body)) then
          .ok true
        else .error ⟨403, "Invalid webhook signature"⟩
    | _, _ => .error ⟨401, "Missing webhook signature or timestamp headers"⟩

/-- `security.generate_webhook_signature`: `none` models the `ValueError`
raised when the secret is falsy; otherwise the `(signature, timestamp)` pair
with `timestamp = str(int(time.time()))`. -/
def generate_webhook_signature (payload : List ℕ) (secret_key : List ℕ) (now : ℕ) :
    Option (List ℕ × List ℕ) :=
  if secret_key = [] then none
  else some (hexBytes (hmacSha256 secret_key (renderNat now ++ [46] ++ payload)),
    renderNat now)

/-! ## Lemmas about the meeting-context model -/

theorem alert_type_weight_cases (t : String) :
    alert_type_weight t = 1 ∨ alert_type_weight t = 11/10 := by
  unfold alert_type_weight lookup_alert_type
  cases h : List.find? (fun p => p.1 = t) alert_types with
  | none => simp
  | some p =>
    have hp := List.mem_of_find?_eq_some h
    fin_cases hp <;> norm_num

theorem alert_type_weight_pos (t : String) : 0 < alert_type_weight t := by
  rcases alert_type_weight_cases t with h | h <;> rw [h] <;> norm_num

theorem typical_attendees_nodup (t : String) : (typical_attendees_of t).Nodup := by
  unfold typical_attendees_of lookup_alert_type
  cases h : List.find? (fun p => p.1 = t) alert_types with
  | none => simp
  | some p =>
    have hp := List.mem_of_find?_eq_some h
    fin_cases hp <;> simp

theorem append_if_absent_nodup {l : List String} (h : l.Nodup) (x : String) :
    (append_if_absent l x).Nodup := by
  unfold append_if_absent
  split
  · exact h
  · next hx =>
    rw [List.nodup_append]
    refine ⟨h, List.nodup_singleton x, ?_⟩
    intro a ha hb
    rw [List.mem_singleton] at hb
    subst hb
    exact hx ha

theorem mem_append_if_absent_self (l : List String) (x : String) :
    x ∈ append_if_absent l x := by
  unfold append_if_absent
  split <;> simp [*]

theorem mem_append_if_absent_of_mem {l : List String} {y : String} (h : y ∈ l) (x : String) :
    y ∈ append_if_absent l x := by
  unfold append_if_absent
  split <;> simp [h]

theorem append_if_absent_extends (l : List String) (x : String) :
    ∃ s, append_if_absent l x = l ++ s := by
  unfold append_if_absent
  split
  · exact ⟨[], by simp⟩
  · exact ⟨[x], rfl⟩

theorem attendees_with_mgmt_extends (alert_type severity : String) :
    ∃ s, attendees_with_mgmt alert_type severity = typical_attendees_of alert_type ++ s := by
  unfold attendees_with_mgmt
  split
  · exact append_if_absent_extends _ _
  · exact ⟨[], by simp⟩

theorem attendees_with_mgmt_nodup (alert_type severity : String) :
    (attendees_with_mgmt alert_type severity).Nodup := by
  unfold attendees_with_mgmt
  have hb := typical_attendees_nodup alert_type
  split
  · exact append_if_absent_nodup hb _
  · exact hb

theorem suggest_attendees_extends (alert_type severity : String) :
    ∃ s, suggest_attendees alert_type severity = typical_attendees_of alert_type ++ s := by
  unfold suggest_attendees
  obtain ⟨s₁, h₁⟩ := attendees_with_mgmt_extends alert_type severity
  split
  · obtain ⟨s₂, h₂⟩ := append_if_absent_extends (attendees_with_mgmt alert_type severity)
      "Executive Sponsor"
    exact ⟨s₁ ++ s₂, by rw [h₂, h₁, List.append_assoc]⟩
  · exact ⟨s₁, h₁⟩

theorem suggest_attendees_nodup_aux (alert_type severity : String) :
    (suggest_attendees alert_type severity).Nodup := by
  unfold suggest_attendees
  split
  · exact append_if_absent_nodup (attendees_with_mgmt_nodup alert_type severity) _
  · exact attendees_with_mgmt_nodup alert_type severity

theorem bucket_rank_getD (i : ℕ) (hi : i ≤ 3) :
    bucket_rank (duration_buckets.getD i "15 minutes") = i ∧
    duration_buckets.getD i "15 minutes" ∈ duration_buckets := by
  interval_cases i <;> constructor <;> decide

theorem duration_index_le_three (severity : String) (n : ℕ) :
    duration_index severity n ≤ 3 :=
  min_le_left _ _

theorem duration_index_mono (severity : String) {n m : ℕ} (h : n ≤ m) :
    duration_index severity n ≤ duration_index severity m := by
  unfold duration_index
  by_cases h1 : 3 < n <;> by_cases h2 : 3 < m <;> simp [h1, h2] <;> omega

theorem duration_index_ge_floor (severity : String) (n : ℕ) :
    severity_floor_index severity ≤ duration_index severity n := by
  have h3 : severity_floor_index severity ≤ 3 := by
    unfold severity_floor_index
    split <;> omega
  unfold duration_index
  split <;> omega

/-! ## Lemmas about the retry loop -/

theorem retry_loop_calls_le (f : ℕ → CallOutcome) :
    ∀ r attempt, (retry_loop f attempt r).2 ≤ r := by
  intro r
  induction r with
  | zero => intro attempt; simp [retry_loop]
  | succ r ih =>
    intro attempt
    cases hf : f attempt with
    | ok v => simp [retry_loop, hf]
    | transientErr =>
      by_cases hr : r = 0
      · simp [retry_loop, hf, hr]
      · simp only [retry_loop, hf, if_neg hr]
        exact Nat.succ_le_succ (ih (attempt + 1))
    | httpStatusErr code =>
      by_cases hc : code < 500
      · simp [retry_loop, hf, hc]
      · by_cases hr : r = 0
        · simp [retry_loop, hf, hc, hr]
        · simp only [retry_loop, hf, if_neg hc, if_neg hr]
          exact Nat.succ_le_succ (ih (attempt + 1))

theorem retry_loop_all_fail (f : ℕ → CallOutcome) :
    ∀ r attempt, 0 < r → (∀ i, attempt ≤ i → i < attempt + r → retryable (f i) = true) →
      (retry_loop f attempt r).1 = .error (f (attempt + r - 1)) := by
  intro r
  induction r with
  | zero => omega
  | succ r ih =>
    intro attempt _ hall
    have h0 : retryable (f attempt) = true := hall attempt le_rfl (by omega)
    cases hf : f attempt with
    | ok v => rw [hf] at h0; simp [retryable] at h0
    | transientErr =>
      rcases Nat.eq_zero_or_pos r with hr | hr
      · subst hr; simp [retry_loop, hf]
      · have hrec := ih (attempt + 1) hr (fun i h1 h2 => hall i (by omega) (by omega))
        simp only [retry_loop, hf, if_neg (Nat.pos_iff_ne_zero.mp hr)]
        rw [hrec]
        congr 2
        omega
    | httpStatusErr code =>
      rw [hf] at h0
      have hc : ¬ code < 500 := by simpa [retryable] using h0
      rcases Nat.eq_zero_or_pos r with hr | hr
      · subst hr; simp [retry_loop, hf, hc]
      · have hrec := ih (attempt + 1) hr (fun i h1 h2 => hall i (by omega) (by omega))
        simp only [retry_loop, hf, if_neg hc, if_neg (Nat.pos_iff_ne_zero.mp hr)]
        rw [hrec]
        congr 2
        omega

theorem retry_loop_fail_then_ok (f : ℕ → CallOutcome) (v : ℕ) :
    ∀ k attempt r, (∀ i, attempt ≤ i → i < attempt + k → ∃ c, 500 ≤ c ∧ f i = .httpStatusErr c) →
      f (attempt + k) = .ok v → k < r →
      retry_loop f attempt r = (.ok v, k + 1) := by
  intro k
  induction k with
  | zero =>
    intro attempt r _ hok hr
    obtain ⟨r', rfl⟩ : ∃ r', r = r' + 1 := ⟨r - 1, by omega⟩
    rw [show attempt + 0 = attempt from rfl] at hok
    simp [retry_loop, hok]
  | succ k ih =>
    intro attempt r hfail hok hr
    obtain ⟨r', rfl⟩ : ∃ r', r = r' + 1 := ⟨r - 1, by omega⟩
    obtain ⟨c, hc, hfc⟩ := hfail attempt le_rfl (by omega)
    have hc' : ¬ c < 500 := by omega
    have hr' : r' ≠ 0 := by omega
    have hrec := ih (attempt + 1) r'
      (fun i h1 h2 => hfail i (by omega) (by omega))
      (by rw [show attempt + 1 + k = attempt + (k + 1) from by omega]; exact hok)
      (by omega)
    simp only [retry_loop, hfc, if_neg hc', if_neg hr', hrec]

/-! ## Lemmas about the rate limiter -/

theorem filter_eq_self_of_window {l : List ℤ} {w now : ℤ}
    (h : ∀ x ∈ l, now - x < w) :
    l.filter (fun ts => now - ts < w) = l :=
  List.filter_eq_self.mpr (fun x hx => decide_eq_true (h x hx))

theorem filter_eq_nil_of_expired {l : List ℤ} {w now : ℤ}
    (h : ∀ x ∈ l, w ≤ now - x) :
    l.filter (fun ts => now - ts < w) = [] :=
  List.filter_eq_nil_iff.mpr (fun x hx => by
    simpa using not_lt.mpr (h x hx))

theorem filter_window_twice (l : List ℤ) (w now t2 : ℤ) (h : now ≤ t2) :
    (l.filter (fun ts => now - ts < w)).filter (fun ts => t2 - ts < w)
      = l.filter (fun ts => t2 - ts < w) := by
  rw [List.filter_filter]
  apply List.filter_congr
  intro x _
  by_cases h2 : t2 - x < w
  · have h1 : now - x < w := by omega
    simp [h1, h2]
  · simp [h2]

theorem foldl_min_eq_self {l : List ℤ} {x : ℤ} (h : ∀ y ∈ l, x ≤ y) :
    l.foldl min x = x := by
  induction l generalizing x with
  | nil => rfl
  | cons y ys ih =>
    have hxy : min x y = x := min_eq_left (h y (by simp))
    simp only [List.foldl_cons, hxy]
    exact ih (fun z hz => h z (by simp [hz]))

theorem list_min_sorted {l : List ℤ} (hne : l ≠ []) (hs : l.Sorted (· ≤ ·)) (d : ℤ) :
    list_min l d = l.headI := by
  cases l with
  | nil => exact absurd rfl hne
  | cons x xs =>
    simp only [list_min, List.headI]
    exact foldl_min_eq_self (fun y hy => (List.sorted_cons.mp hs).1 y hy)

theorem rate_limit_allows (store : RLStore) (client_ip : String) (max_requests : ℕ)
    (window_seconds now : ℤ) (do_cleanup : Bool)
    (h : ((store client_ip).filter (fun ts => now - ts < window_seconds)).length
      < max_requests) :
    rate_limit_check store client_ip max_requests window_seconds now do_cleanup =
      (.ok (),
        if do_cleanup then
          cleanup_old_entries
            (add_request (get_requests store client_ip window_seconds now).2 client_ip now)
            window_seconds now
        else add_request (get_requests store client_ip window_seconds now).2 client_ip now) := by
  have hcond : ¬ max_requests ≤ (get_requests store client_ip window_seconds now).1.length := by
    simp only [get_requests]
    omega
  simp only [rate_limit_check, if_neg hcond]

theorem rate_limit_rejects (store : RLStore) (client_ip : String) (max_requests : ℕ)
    (window_seconds now : ℤ) (do_cleanup : Bool)
    (hlen : max_requests ≤
      ((store client_ip).filter (fun ts => now - ts < window_seconds)).length) :
    rate_limit_check store client_ip max_requests window_seconds now do_cleanup =
      (.error ⟨429,
          window_seconds - (now - list_min
            ((store client_ip).filter (fun ts => now - ts < window_seconds)) now),
          max 1 (window_seconds - (now - list_min
            ((store client_ip).filter (fun ts => now - ts < window_seconds)) now))⟩,
        fun k => if k = client_ip
          then (store client_ip).filter (fun ts => now - ts < window_seconds)
          else store k) := by
  simp only [rate_limit_check, get_requests]
  rw [if_pos hlen]

theorem rate_limit_success (store : RLStore) (client_ip : String) (max_requests : ℕ)
    (window_seconds t : ℤ) (c : Bool) (hw : 0 < window_seconds)
    (hwin : ∀ x ∈ store client_ip, t - x < window_seconds)
    (hlt : (store client_ip).length < max_requests) :
    ∃ store2,
      rate_limit_check store client_ip max_requests window_seconds t c = (.ok (), store2) ∧
      store2 client_ip = store client_ip ++ [t] ∧
      (∀ k, k ≠ client_ip → store k = [] → store2 k = []) := by
  have hfilter : (store client_ip).filter (fun ts => t - ts < window_seconds)
      = store client_ip := filter_eq_self_of_window hwin
  have hwin' : ∀ x ∈ store client_ip ++ [t], t - x < window_seconds := by
    intro x hx
    rcases List.mem_append.mp hx with h | h
    · exact hwin x h
    · rw [List.mem_singleton] at h
      subst h
      omega
  have hlt' : ((store client_ip).filter (fun ts => t - ts < window_seconds)).length
      < max_requests := by rw [hfilter]; exact hlt
  refine ⟨_, rate_limit_allows store client_ip max_requests window_seconds t c hlt', ?_, ?_⟩
  · cases c with
    | false => simp [add_request, get_requests, hfilter]
    | true =>
      show ((add_request (get_requests store client_ip window_seconds t).2 client_ip t)
          client_ip).filter (fun ts => t - ts < window_seconds) = store client_ip ++ [t]
      have hadd : (add_request (get_requests store client_ip window_seconds t).2 client_ip t)
          client_ip = store client_ip ++ [t] := by
        simp [add_request, get_requests, hfilter]
      rw [hadd]
      exact filter_eq_self_of_window hwin'
  · intro k hk hsk
    cases c with
    | false => simp [add_request, get_requests, hk, hsk]
    | true =>
      show ((add_request (get_requests store client_ip window_seconds t).2 client_ip t)
          k).filter (fun ts => t - ts < window_seconds) = []
      have hadd : (add_request (get_requests store client_ip window_seconds t).2 client_ip t)
          k = [] := by
        simp [add_request, get_requests, hk, hsk]
      rw [hadd]
      rfl

theorem run_calls_ok (client_ip : String) (max_requests : ℕ) (window_seconds : ℤ)
    (hw : 0 < window_seconds) :
    ∀ (calls : List (ℤ × Bool)) (store : RLStore) (prev : List ℤ),
      store client_ip = prev →
      prev.length + calls.length ≤ max_requests →
      (∀ x ∈ prev, ∀ p ∈ calls, x ≤ p.1 ∧ p.1 - x < window_seconds) →
      (calls.map Prod.fst).Sorted (· ≤ ·) →
      (∀ a ∈ calls.map Prod.fst, ∀ b ∈ calls.map Prod.fst, a - b < window_seconds) →
      ∃ store₁,
        run_rate_limit_calls store client_ip max_requests window_seconds calls = some store₁ ∧
        store₁ client_ip = prev ++ calls.map Prod.fst ∧
        (∀ k, k ≠ client_ip → store k = [] → store₁ k = []) := by
  intro calls
  induction calls with
  | nil =>
    intro store prev hprev _ _ _ _
    exact ⟨store, rfl, by simp [hprev], fun k _ hk => hk⟩
  | cons tc rest ih =>
    obtain ⟨t, c⟩ := tc
    intro store prev hprev hlen hgap hsorted hspread
    have hwin : ∀ x ∈ store client_ip, t - x < window_seconds := by
      intro x hx
      rw [hprev] at hx
      exact (hgap x hx (t, c) (by simp)).2
    have hlt : (store client_ip).length < max_requests := by
      rw [hprev]
      simp only [List.length_cons] at hlen
      omega
    obtain ⟨store2, hstep, hst2ip, hst2other⟩ :=
      rate_limit_success store client_ip max_requests window_seconds t c hw hwin hlt
    have hsc : (∀ b ∈ rest.map Prod.fst, t ≤ b) ∧ (rest.map Prod.fst).Sorted (· ≤ ·) :=
      List.sorted_cons.mp (by simpa only [List.map_cons] using hsorted)
    have hsorttail : (rest.map Prod.fst).Sorted (· ≤ ·) := hsc.2
    have hheadle : ∀ b ∈ rest.map Prod.fst, t ≤ b := hsc.1
    obtain ⟨store₁, hrun, hip1, hother1⟩ := ih store2 (prev ++ [t])
      (by rw [hst2ip, hprev])
      (by
        simp only [List.length_append, List.length_cons, List.length_nil] at hlen ⊢
        omega)
      (by
        intro x hx p hp
        rcases List.mem_append.mp hx with h | h
        · exact hgap x h p (by simp [hp])
        · rw [List.mem_singleton] at h
          rw [h]
          refine ⟨hheadle p.1 (List.mem_map_of_mem Prod.fst hp), ?_⟩
          exact hspread p.1 (by simp [List.mem_map_of_mem Prod.fst hp])
            t (by simp))
      hsorttail
      (by
        intro a ha b hb
        exact hspread a (by simp [ha]) b (by simp [hb]))
    refine ⟨store₁, ?_, ?_, ?_⟩
    · simp only [run_rate_limit_calls, hstep]
      exact hrun
    · rw [hip1]
      simp
    · intro k hk hsk
      exact hother1 k hk (hst2other k hk hsk)

/-! ## Claim theorems: C1, C2, C3, C6 -/

/-- C1: for every severity in {low, medium, high, critical} and every
alert_type, `_calculate_urgency` returns a record whose scores are strictly
ordered critical > high > medium > low for a fixed alert_type, whose level
is derived from the score by the band thresholds, and which for severity
"critical" has level CRITICAL, score ≥ 0.8, and response time "< 1 hour". -/
theorem urgency_spec (alert_type severity : String)
    (hsev : severity = "critical" ∨ severity = "high" ∨ severity = "medium" ∨ severity = "low") :
    ((calculate_urgency "high" alert_type).score < (calculate_urgency "critical" alert_type).score ∧
     (calculate_urgency "medium" alert_type).score < (calculate_urgency "high" alert_type).score ∧
     (calculate_urgency "low" alert_type).score < (calculate_urgency "medium" alert_type).score) ∧
    (calculate_urgency severity alert_type).level =
      urgency_level (calculate_urgency severity alert_type).score ∧
    (severity = "critical" →
      (calculate_urgency severity alert_type).level = "CRITICAL" ∧
      8/10 ≤ (calculate_urgency severity alert_type).score ∧
      (calculate_urgency severity alert_type).recommended_response_time = "< 1 hour") := by
  rcases alert_type_weight_cases alert_type with hw | hw <;>
    rcases hsev with rfl | rfl | rfl | rfl <;>
    refine ⟨⟨?_, ?_, ?_⟩, rfl, ?_⟩ <;>
    norm_num [calculate_urgency, urgency_score, urgency_level, level_response_time,
      severity_base_score, hw, min_def] <;>
    decide

/-- C1 witness at severity = "critical", alert_type = "system_failure". -/
theorem urgency_spec_witness :
    (("critical" : String) = "critical" ∨ ("critical" : String) = "high" ∨
      ("critical" : String) = "medium" ∨ ("critical" : String) = "low") ∧
    ((calculate_urgency "critical" "system_failure").level = "CRITICAL" ∧
      8/10 ≤ (calculate_urgency "critical" "system_failure").score ∧
      (calculate_urgency "critical" "system_failure").recommended_response_time = "< 1 hour") :=
  ⟨Or.inl rfl, (urgency_spec "system_failure" "critical" (Or.inl rfl)).2.2 rfl⟩

/-- C2: `_suggest_attendees` returns a duplicate-free list that starts with
the alert type's base attendees in declared order; "Management" is present
for critical/high severity; "Executive Sponsor" is additionally present for
security_incident / compliance_violation (or compliance/security category)
at critical/high severity; including the three concrete instances from §8. -/
theorem attendees_spec (alert_type severity : String) :
    (suggest_attendees alert_type severity).Nodup ∧
    (suggest_attendees alert_type severity).take (typical_attendees_of alert_type).length
      = typical_attendees_of alert_type ∧
    ((severity = "critical" ∨ severity = "high") →
      "Management" ∈ suggest_attendees alert_type severity) ∧
    ((severity = "critical" ∨ severity = "high") ∧
        (alert_type = "security_incident" ∨ alert_type = "compliance_violation" ∨
         alert_type_category alert_type = "compliance" ∨
         alert_type_category alert_type = "security") →
      "Executive Sponsor" ∈ suggest_attendees alert_type severity) ∧
    ("DevOps" ∈ suggest_attendees "system_failure" "critical" ∧
     "Management" ∈ suggest_attendees "system_failure" "critical") ∧
    ("Compliance Officer" ∈ suggest_attendees "compliance_violation" "high" ∧
     "Legal" ∈ suggest_attendees "compliance_violation" "high" ∧
     "Management" ∈ suggest_attendees "compliance_violation" "high") ∧
    ("Security Team" ∈ suggest_attendees "security_incident" "critical" ∧
     "CISO" ∈ suggest_attendees "security_incident" "critical" ∧
     "Executive Sponsor" ∈ suggest_attendees "security_incident" "critical") := by
  refine ⟨suggest_attendees_nodup_aux alert_type severity, ?_, ?_, ?_, ?_, ?_, ?_⟩
  · obtain ⟨s, hs⟩ := suggest_attendees_extends alert_type severity
    rw [hs, List.take_left]
  · intro hsev
    have hm : "Management" ∈ attendees_with_mgmt alert_type severity := by
      unfold attendees_with_mgmt
      rw [if_pos hsev]
      exact mem_append_if_absent_self _ _
    unfold suggest_attendees
    split
    · exact mem_append_if_absent_of_mem hm _
    · exact hm
  · intro ⟨hsev, hty⟩
    unfold suggest_attendees
    rw [if_pos ⟨hsev, hty⟩]
    exact mem_append_if_absent_self _ _
  · exact ⟨by decide, by decide⟩
  · exact ⟨by decide, by decide, by decide⟩
  · exact ⟨by decide, by decide, by decide⟩

/-- C2 witness at alert_type = "security_incident", severity = "critical". -/
theorem attendees_spec_witness :
    (suggest_attendees "security_incident" "critical").Nodup ∧
    "Management" ∈ suggest_attendees "security_incident" "critical" ∧
    "Executive Sponsor" ∈ suggest_attendees "security_incident" "critical" :=
  have h := attendees_spec "security_incident" "critical"
  ⟨h.1, h.2.2.1 (Or.inl rfl),
    h.2.2.2.1 ⟨Or.inl rfl, Or.inl rfl⟩⟩

/-- C3: `_recommend_duration` always returns one of the four fixed buckets,
is monotone non-decreasing in the affected-system count for a fixed
severity, never falls below the severity's floor bucket, and matches the §8
example inputs (critical→60, high→45, medium→30, low→15 minutes). -/
theorem duration_spec (severity : String) (affected_systems : List String) :
    recommend_duration severity affected_systems ∈ duration_buckets ∧
    (∀ more : List String, affected_systems.length ≤ more.length →
      bucket_rank (recommend_duration severity affected_systems) ≤
        bucket_rank (recommend_duration severity more)) ∧
    severity_floor_index severity ≤ bucket_rank (recommend_duration severity affected_systems) ∧
    recommend_duration "critical" ["A", "B", "C", "D"] = "60 minutes" ∧
    recommend_duration "high" ["A", "B"] = "45 minutes" ∧
    recommend_duration "medium" ["A"] = "30 minutes" ∧
    recommend_duration "low" [] = "15 minutes" := by
  have hrank' : ∀ l : List String, bucket_rank (recommend_duration severity l)
      = duration_index severity l.length := by
    intro l
    have := (bucket_rank_getD (duration_index severity l.length)
      (duration_index_le_three severity l.length)).1
    simpa [recommend_duration] using this
  refine ⟨?_, ?_, ?_, by decide, by decide, by decide, by decide⟩
  · have := (bucket_rank_getD (duration_index severity affected_systems.length)
      (duration_index_le_three severity affected_systems.length)).2
    simpa [recommend_duration] using this
  · intro more hlen
    rw [hrank', hrank']
    exact duration_index_mono severity hlen
  · rw [hrank']
    exact duration_index_ge_floor severity _

/-- C3 witness at severity = "critical" with four affected systems. -/
theorem duration_spec_witness :
    recommend_duration "critical" ["A", "B", "C", "D"] ∈ duration_buckets ∧
    recommend_duration "critical" ["A", "B", "C", "D"] = "60 minutes" :=
  have h := duration_spec "critical" ["A", "B", "C", "D"]
  ⟨h.1, h.2.2.2.1⟩

/-- C6: `retry_with_backoff` returns the success result when the operation
fails with HTTP 5xx exactly `max_retries` times and then succeeds (invoking
it `max_retries + 1` times); a first-attempt HTTP 4xx failure raises
immediately with exactly one invocation; the operation is invoked at most
`max_retries + 1` times; and the last error is propagated when every
attempt fails with a retryable error. -/
theorem retry_with_backoff_spec (f : ℕ → CallOutcome) (max_retries : ℕ) :
    (∀ v, (∀ i, i < max_retries → ∃ c, 500 ≤ c ∧ f i = .httpStatusErr c) →
      f max_retries = .ok v →
      retry_with_backoff f max_retries = (.ok v, max_retries + 1)) ∧
    (∀ c, 400 ≤ c → c < 500 → f 0 = .httpStatusErr c →
      retry_with_backoff f max_retries = (.error (.httpStatusErr c), 1)) ∧
    (retry_with_backoff f max_retries).2 ≤ max_retries + 1 ∧
    ((∀ i, i ≤ max_retries → retryable (f i) = true) →
      (retry_with_backoff f max_retries).1 = .error (f max_retries)) := by
  refine ⟨?_, ?_, retry_loop_calls_le f _ 0, ?_⟩
  · intro v hfail hok
    exact retry_loop_fail_then_ok f v max_retries 0 (max_retries + 1)
      (fun i h1 h2 => hfail i (by omega)) (by simpa using hok) (by omega)
  · intro c _ hc hf
    simp only [retry_with_backoff, retry_loop, hf, if_pos hc]
  · intro hall
    have := retry_loop_all_fail f (max_retries + 1) 0 (by omega)
      (fun i h1 h2 => hall i (by omega))
    simpa [retry_with_backoff] using this

/-- C6 witness: an operation failing twice with HTTP 503 and succeeding on
the third attempt, run with max_retries = 2, returns the success value
after exactly three invocations. -/
theorem retry_with_backoff_spec_witness :
    retry_with_backoff (fun i => if i < 2 then .httpStatusErr 503 else .ok 7) 2
      = (.ok 7, 3) :=
  (retry_with_backoff_spec (fun i => if i < 2 then .httpStatusErr 503 else .ok 7) 2).1 7
    (fun i hi => ⟨503, by omega, by simp [hi]⟩) (by simp)

/-! ## Claim theorems: C5, C10 -/

/-- C5: starting from a client IP with no recorded requests, all
`max_requests` consecutive in-window calls to `rate_limit_check` succeed;
the `(max_requests + 1)`-th call is rejected with HTTP 429 whose retry-after
is `window_seconds - (now - oldest recorded timestamp)` clamped to a minimum
of 1; a different fresh client IP still succeeds at the same instant; and
once `window_seconds` have elapsed past every recorded request the original
IP succeeds again. -/
theorem rate_limit_spec (store : RLStore) (client_ip other_ip : String)
    (max_requests : ℕ) (window_seconds t' later : ℤ) (calls : List (ℤ × Bool))
    (c1 c2 c3 : Bool)
    (hmax : 1 ≤ max_requests)
    (hw : 0 < window_seconds)
    (hip : other_ip ≠ client_ip)
    (hfresh : store client_ip = [])
    (hfresh2 : store other_ip = [])
    (hcount : calls.length = max_requests)
    (hsorted : (calls.map Prod.fst).Sorted (· ≤ ·))
    (hspread : ∀ a ∈ calls.map Prod.fst, ∀ b ∈ calls.map Prod.fst, a - b < window_seconds)
    (ht' : ∀ a ∈ calls.map Prod.fst, a ≤ t' ∧ t' - a < window_seconds)
    (hlater : ∀ a ∈ calls.map Prod.fst, window_seconds ≤ later - a) :
    ∃ store₁,
      run_rate_limit_calls store client_ip max_requests window_seconds calls = some store₁ ∧
      store₁ client_ip = calls.map Prod.fst ∧
      rate_limit_check store₁ client_ip max_requests window_seconds t' c1 =
        (.error ⟨429, window_seconds - (t' - (calls.map Prod.fst).headI),
           max 1 (window_seconds - (t' - (calls.map Prod.fst).headI))⟩,
         fun k => if k = client_ip then calls.map Prod.fst else store₁ k) ∧
      (∃ s2, rate_limit_check store₁ other_ip max_requests window_seconds t' c2
        = (.ok (), s2)) ∧
      (∃ s3, rate_limit_check
          (rate_limit_check store₁ client_ip max_requests window_seconds t' c1).2
          client_ip max_requests window_seconds later c3 = (.ok (), s3)) := by
  obtain ⟨store₁, hrun, hip1, hother1⟩ := run_calls_ok client_ip max_requests window_seconds hw
    calls store [] hfresh
    (by simp only [List.length_nil]; omega)
    (by intro x hx; exact absurd hx (List.not_mem_nil x))
    hsorted hspread
  rw [List.nil_append] at hip1
  have hne : calls.map Prod.fst ≠ [] := by
    intro hcon
    have : calls.length = 0 := by simpa using congrArg List.length hcon
    omega
  have hfilt : (store₁ client_ip).filter (fun ts => t' - ts < window_seconds)
      = calls.map Prod.fst := by
    rw [hip1]
    exact filter_eq_self_of_window (fun a ha => (ht' a ha).2)
  have hminval : list_min (calls.map Prod.fst) t' = (calls.map Prod.fst).headI :=
    list_min_sorted hne hsorted t'
  have hlenfull : max_requests ≤
      ((store₁ client_ip).filter (fun ts => t' - ts < window_seconds)).length := by
    rw [hfilt, List.length_map, hcount]
  have hrej := rate_limit_rejects store₁ client_ip max_requests window_seconds t' c1 hlenfull
  rw [hfilt, hminval] at hrej
  refine ⟨store₁, hrun, hip1, hrej, ?_, ?_⟩
  · have hother : store₁ other_ip = [] := hother1 other_ip hip hfresh2
    refine ⟨_, rate_limit_allows store₁ other_ip max_requests window_seconds t' c2 ?_⟩
    rw [hother]
    simpa using hmax
  · have hsnd : (rate_limit_check store₁ client_ip max_requests window_seconds t' c1).2
        = fun k => if k = client_ip then calls.map Prod.fst else store₁ k := by
      rw [hrej]
    refine ⟨_, rate_limit_allows _ client_ip max_requests window_seconds later c3 ?_⟩
    rw [hsnd]
    simp only [if_pos]
    rw [filter_eq_nil_of_expired hlater]
    simpa using hmax

/-- C5 witness: max_requests = 2, window 60, two calls at instants 0 and 1,
a third call at instant 2 is rejected with retry-after 58, a second IP still
succeeds at instant 2, and the first IP succeeds again at instant 100. -/
theorem rate_limit_spec_witness :
    ∃ store₁,
      run_rate_limit_calls (fun _ => []) "10.0.0.1" 2 60 [(0, false), (1, false)]
        = some store₁ ∧
      store₁ "10.0.0.1" = [(0, false), (1, false)].map Prod.fst ∧
      rate_limit_check store₁ "10.0.0.1" 2 60 2 false =
        (.error ⟨429, 60 - (2 - ([(0, false), (1, false)].map Prod.fst).headI),
           max 1 (60 - (2 - ([(0, false), (1, false)].map Prod.fst).headI))⟩,
         fun k => if k = "10.0.0.1" then [(0, false), (1, false)].map Prod.fst
                  else store₁ k) ∧
      (∃ s2, rate_limit_check store₁ "10.0.0.2" 2 60 2 false = (.ok (), s2)) ∧
      (∃ s3, rate_limit_check (rate_limit_check store₁ "10.0.0.1" 2 60 2 false).2
          "10.0.0.1" 2 60 100 false = (.ok (), s3)) :=
  rate_limit_spec (fun _ => []) "10.0.0.1" "10.0.0.2" 2 60 2 100
    [(0, false), (1, false)] false false false
    (by omega) (by omega) (by decide) rfl rfl rfl
    (by decide) (by decide) (by decide) (by decide)

/-- C10 (amended): a call to `rate_limit_check` rejected with HTTP 429 never
records the rejected request's timestamp: the store for that client IP
becomes exactly the window-filtered view of its previous entries (expired
entries may be pruned, nothing is added), other clients' entries are
untouched, and the set of in-window timestamps — what counts toward
`max_requests` — is unchanged at the rejection instant and at any later
instant. -/
theorem rate_limit_reject_no_record (store : RLStore) (client_ip : String)
    (max_requests : ℕ) (window_seconds now : ℤ) (do_cleanup : Bool)
    (err : RateLimitExceeded)
    (h : (rate_limit_check store client_ip max_requests window_seconds now do_cleanup).1
      = .error err) :
    (rate_limit_check store client_ip max_requests window_seconds now do_cleanup).2 client_ip
      = (store client_ip).filter (fun ts => now - ts < window_seconds) ∧
    (∀ k, k ≠ client_ip →
      (rate_limit_check store client_ip max_requests window_seconds now do_cleanup).2 k
        = store k) ∧
    (∀ t2 : ℤ, now ≤ t2 →
      ((rate_limit_check store client_ip max_requests window_seconds now do_cleanup).2
          client_ip).filter (fun ts => t2 - ts < window_seconds)
        = (store client_ip).filter (fun ts => t2 - ts < window_seconds)) := by
  by_cases hc : max_requests ≤ (get_requests store client_ip window_seconds now).1.length
  · have h2 : (rate_limit_check store client_ip max_requests window_seconds now do_cleanup).2
        = (get_requests store client_ip window_seconds now).2 := by
      simp [rate_limit_check, hc]
    rw [h2]
    refine ⟨by simp [get_requests], ?_, ?_⟩
    · intro k hk
      simp [get_requests, hk]
    · intro t2 ht2
      have hip : (get_requests store client_ip window_seconds now).2 client_ip
          = (store client_ip).filter (fun ts => now - ts < window_seconds) := by
        simp [get_requests]
      rw [hip]
      exact filter_window_twice _ _ _ _ ht2
  · exfalso
    simp [rate_limit_check, hc] at h

/-- C10 counterexample: the claim's "leaves the rate-limit store unchanged
for that client IP" is false as stated — a rejected call prunes the client's
already-expired entries inside `get_requests`, changing the raw stored list
(here from [0, 50] to [50]) even though nothing is recorded. -/
theorem rate_limit_reject_changes_store :
    (rate_limit_check (fun k => if k = "9.9.9.9" then [0, 50] else []) "9.9.9.9"
        1 60 100 false).1 = .error ⟨429, 10, 10⟩ ∧
    (rate_limit_check (fun k => if k = "9.9.9.9" then [0, 50] else []) "9.9.9.9"
        1 60 100 false).2 "9.9.9.9" = [50] ∧
    (fun k => if k = "9.9.9.9" then [0, 50] else ([] : List ℤ)) "9.9.9.9" = [0, 50] ∧
    ([50] : List ℤ) ≠ [0, 50] := by
  refine ⟨?_, ?_, rfl, by decide⟩ <;>
    simp [rate_limit_check, get_requests, list_min]

/-! ## Lemmas about the signature embedding -/

theorem wordBytes_lt (w : ℕ) : ∀ b ∈ wordBytes w, b < 256 := by
  intro b hb
  simp only [wordBytes, List.mem_cons, List.not_mem_nil, or_false] at hb
  rcases hb with rfl | rfl | rfl | rfl <;> exact Nat.mod_lt _ (by norm_num)

theorem sha_final_length (st : Sha256State) : (sha_final st).length = 32 := by
  simp [sha_final, wordBytes]

theorem sha_final_lt (st : Sha256State) : ∀ b ∈ sha_final st, b < 256 := by
  intro b hb
  simp only [sha_final, List.mem_append] at hb
  casesm* _ ∨ _ <;> exact wordBytes_lt _ b (by assumption)

theorem sha256_length (msg : List ℕ) : (sha256 msg).length = 32 :=
  sha_final_length _

theorem sha256_lt (msg : List ℕ) : ∀ b ∈ sha256 msg, b < 256 :=
  sha_final_lt _

theorem hmacSha256_length (key msg : List ℕ) : (hmacSha256 key msg).length = 32 :=
  sha256_length _

theorem hmacSha256_lt (key msg : List ℕ) : ∀ b ∈ hmacSha256 key msg, b < 256 :=
  sha256_lt _

theorem parse_render (n : ℕ) : parseNat? (renderNat n) = some n := by
  by_cases h : n = 0
  · subst h
    decide
  · unfold renderNat
    rw [if_neg h]
    have hdig : ∀ d ∈ Nat.digits 10 n, d < 10 := fun d hd =>
      Nat.digits_lt_base (by norm_num) hd
    unfold parseNat?
    rw [if_pos ?hc]
    case hc =>
      constructor
      · simp [Nat.digits_ne_nil_iff_ne_zero.mpr h]
      · rw [List.all_eq_true]
        intro b hb
        rw [List.mem_reverse, List.mem_map] at hb
        obtain ⟨d, hd, rfl⟩ := hb
        have := hdig d hd
        simp only [decide_eq_true_eq]
        omega
    · congr 1
      rw [List.map_reverse, List.reverse_reverse, List.map_map]
      have hid : ((fun b => b - 48) ∘ fun d => d + 48) = id := by
        funext d
        simp
      rw [hid, List.map_id, Nat.ofDigits_digits]

theorem verify_unfold (cfg_secret body sig ts : List ℕ) (now : ℕ) (hc : cfg_secret ≠ []) :
    verify_webhook_signature cfg_secret body (some sig) (some ts) now =
      match parseNat? ts with
      | none => .error ⟨400, "Invalid timestamp format"⟩
      | some request_time =>
        if 300 < ((now : ℤ) - request_time).natAbs then
          .error ⟨401, "Request timestamp too old. Possible replay attack."⟩
        else if sig = hexBytes (hmacSha256 cfg_secret (ts ++ [46] ++ body)) then
          .ok true
        else .error ⟨403, "Invalid webhook signature"⟩ := by
  unfold verify_webhook_signature
  rw [if_neg hc]

theorem verify_unfold_parsed (cfg_secret body sig ts : List ℕ) (now t : ℕ)
    (hc : cfg_secret ≠ []) (hp : parseNat? ts = some t) :
    verify_webhook_signature cfg_secret body (some sig) (some ts) now =
      if 300 < ((now : ℤ) - t).natAbs then
        .error ⟨401, "Request timestamp too old. Possible replay attack."⟩
      else if sig = hexBytes (hmacSha256 cfg_secret (ts ++ [46] ++ body)) then
        .ok true
      else .error ⟨403, "Invalid webhook signature"⟩ := by
  rw [verify_unfold _ _ _ _ _ hc, hp]

/-! ## Claim theorems: C4 -/

/-- C4 (amended): with a configured non-empty secret, the signature round
trip verifies whenever the verification instant is within the 300-second
window of the generation instant; verification fails with 403 whenever the
provided signature differs from the HMAC-SHA256 recomputed under the
verification secret over `timestamp ++ "." ++ body` — in particular for
every alteration of the payload or secret that changes the digest; and a
timestamp farther than 300 seconds from the current time fails with the 401
replay error even when the signature is the correct HMAC of the signed
message. -/
theorem webhook_signature_spec (payload secret : List ℕ) (now now' : ℕ)
    (hsecret : secret ≠ [])
    (hwin : ((now' : ℤ) - now).natAbs ≤ 300) :
    (∀ sig ts, generate_webhook_signature payload secret now = some (sig, ts) →
      verify_webhook_signature secret payload (some sig) (some ts) now' = .ok true) ∧
    (∀ (body' sig ts : List ℕ) (t : ℕ), parseNat? ts = some t →
      ((now' : ℤ) - t).natAbs ≤ 300 →
      sig ≠ hexBytes (hmacSha256 secret (ts ++ [46] ++ body')) →
      verify_webhook_signature secret body' (some sig) (some ts) now'
        = .error ⟨403, "Invalid webhook signature"⟩) ∧
    (∀ (body' : List ℕ) (t : ℕ), 300 < ((now' : ℤ) - t).natAbs →
      verify_webhook_signature secret body'
          (some (hexBytes (hmacSha256 secret (renderNat t ++ [46] ++ body'))))
          (some (renderNat t)) now'
        = .error ⟨401, "Request timestamp too old. Possible replay attack."⟩) := by
  refine ⟨?_, ?_, ?_⟩
  · intro sig ts hgen
    unfold generate_webhook_signature at hgen
    rw [if_neg hsecret] at hgen
    have hpair := Option.some.inj hgen
    have h1 : hexBytes (hmacSha256 secret (renderNat now ++ [46] ++ payload)) = sig :=
      congrArg Prod.fst hpair
    have h2 : renderNat now = ts := congrArg Prod.snd hpair
    subst h1 h2
    rw [verify_unfold_parsed _ _ _ _ _ now hsecret (parse_render now)]
    rw [if_neg (not_lt.mpr hwin), if_pos rfl]
  · intro body' sig ts t hparse hwint hne
    rw [verify_unfold_parsed _ _ _ _ _ t hsecret hparse]
    rw [if_neg (not_lt.mpr hwint), if_neg hne]
  · intro body' t hstale
    rw [verify_unfold_parsed _ _ _ _ _ t hsecret (parse_render t)]
    rw [if_pos hstale]

/-- C4 witness: concrete payload `"hi"` and secret `"k"`, generated at
instant 1000 and verified at instant 1100, inside the replay window. -/
theorem webhook_signature_spec_witness :
    (∀ sig ts, generate_webhook_signature [104, 105] [107] 1000 = some (sig, ts) →
      verify_webhook_signature [107] [104, 105] (some sig) (some ts) 1100 = .ok true) ∧
    (∀ (body' sig ts : List ℕ) (t : ℕ), parseNat? ts = some t →
      ((1100 : ℤ) - t).natAbs ≤ 300 →
      sig ≠ hexBytes (hmacSha256 [107] (ts ++ [46] ++ body')) →
      verify_webhook_signature [107] body' (some sig) (some ts) 1100
        = .error ⟨403, "Invalid webhook signature"⟩) ∧
    (∀ (body' : List ℕ) (t : ℕ), 300 < ((1100 : ℤ) - t).natAbs →
      verify_webhook_signature [107] body'
          (some (hexBytes (hmacSha256 [107] (renderNat t ++ [46] ++ body'))))
          (some (renderNat t)) 1100
        = .error ⟨401, "Request timestamp too old. Possible replay attack."⟩) :=
  webhook_signature_spec [104, 105] [107] 1000 1100 (by decide) (by decide)

/-- C4 counterexample (against the claim's "verifying under a different
secret makes verification fail every time"): HMAC-SHA256 maps the
infinitely many non-empty secrets into the finitely many 32-byte digests,
so two distinct non-empty secrets collide on a fixed signed message, and
the signature generated under the first verifies successfully under the
second. -/
theorem webhook_signature_wrong_secret_can_succeed :
    ∃ (secret₁ secret₂ payload : List ℕ) (now : ℕ) (sig ts : List ℕ),
      secret₁ ≠ [] ∧ secret₂ ≠ [] ∧ secret₁ ≠ secret₂ ∧
      generate_webhook_signature payload secret₁ now = some (sig, ts) ∧
      verify_webhook_signature secret₂ payload (some sig) (some ts) now = .ok true := by
  obtain ⟨n₁, n₂, hne, heq⟩ := Finite.exists_ne_map_eq_of_infinite
    (fun n : ℕ => fun i : Fin 32 =>
      (⟨(hmacSha256 (List.replicate (n + 1) 97)
          (renderNat 0 ++ [46] ++ ([] : List ℕ))).getD i 0 % 256,
        Nat.mod_lt _ (by norm_num)⟩ : Fin 256))
  have hdig : hmacSha256 (List.replicate (n₁ + 1) 97) (renderNat 0 ++ [46] ++ ([] : List ℕ))
      = hmacSha256 (List.replicate (n₂ + 1) 97) (renderNat 0 ++ [46] ++ ([] : List ℕ)) := by
    apply List.ext_getElem
    · rw [hmacSha256_length, hmacSha256_length]
    · intro i hi1 hi2
      have hlen1 : i < 32 := by rw [hmacSha256_length] at hi1; exact hi1
      have hfi := congrArg Fin.val (congrFun heq ⟨i, hlen1⟩)
      simp only [] at hfi
      have e1 : (hmacSha256 (List.replicate (n₁ + 1) 97)
          (renderNat 0 ++ [46] ++ ([] : List ℕ))).getD i 0
          = (hmacSha256 (List.replicate (n₁ + 1) 97)
            (renderNat 0 ++ [46] ++ ([] : List ℕ)))[i] := by
        rw [List.getD_eq_getElem?_getD, List.getElem?_eq_getElem hi1]
        rfl
      have e2 : (hmacSha256 (List.replicate (n₂ + 1) 97)
          (renderNat 0 ++ [46] ++ ([] : List ℕ))).getD i 0
          = (hmacSha256 (List.replicate (n₂ + 1) 97)
            (renderNat 0 ++ [46] ++ ([] : List ℕ)))[i] := by
        rw [List.getD_eq_getElem?_getD, List.getElem?_eq_getElem hi2]
        rfl
      have b1 := hmacSha256_lt (List.replicate (n₁ + 1) 97)
        (renderNat 0 ++ [46] ++ ([] : List ℕ)) _ (List.getElem_mem hi1)
      have b2 := hmacSha256_lt (List.replicate (n₂ + 1) 97)
        (renderNat 0 ++ [46] ++ ([] : List ℕ)) _ (List.getElem_mem hi2)
      rw [e1, e2, Nat.mod_eq_of_lt b1, Nat.mod_eq_of_lt b2] at hfi
      exact hfi
  refine ⟨List.replicate (n₁ + 1) 97, List.replicate (n₂ + 1) 97, [], 0,
    hexBytes (hmacSha256 (List.replicate (n₁ + 1) 97)
      (renderNat 0 ++ [46] ++ ([] : List ℕ))), renderNat 0,
    by simp, by simp, ?_, ?_, ?_⟩
  · intro hcon
    have := congrArg List.length hcon
    rw [List.length_replicate, List.length_replicate] at this
    omega
  · unfold generate_webhook_signature
    rw [if_neg (by simp)]
  · rw [verify_unfold_parsed _ _ _ _ _ 0 (by simp) (parse_render 0)]
    rw [if_neg (by norm_num), if_pos (congrArg hexBytes hdig)]

/-! ## Claim theorems: C7, C8, C9 -/

/-- C7 (the code contradicts the spec here): in `_alert_to_meeting_workflow`
the learning step is awaited (agent_orchestrator.py line 432) with no
exception guard, so whenever the learning agent's `learn_from_interaction`
raises, the workflow returns no combined result — the error propagates to
the caller, contrary to the fire-and-forget requirement (§4.6 step i, §5,
§7; the `asyncio.create_task` fire-and-forget pattern at line 184 is not
used by this workflow). -/
theorem alert_to_meeting_learn_error_propagates {ε : Type} (env : AgentEnv ε)
    (alert : AlertData) (meeting : MeetingData) (gen_token now_iso : String)
    (rca : RcaResult) (comp : ComplianceResult) (ctx : String) (e : ε)
    (h1 : env.analyze_failure alert = .ok rca)
    (h2 : env.check_compliance alert rca.root_cause = .ok comp)
    (h3 : ∀ m enriched, env.process_slotify_meeting m enriched = .ok ctx)
    (h4 : ∀ s, env.learn_from_interaction s = .error e) :
    alert_to_meeting_workflow env alert meeting gen_token now_iso = .error e := by
  simp [alert_to_meeting_workflow, h1, h2, h3, h4]

/-- C7 witness: the workflow evaluated at a concrete failing input — every
agent call succeeds except the learning call, and the workflow's result is
the learning call's error rather than a combined result. -/
theorem alert_to_meeting_learn_error_propagates_witness :
    alert_to_meeting_workflow (ε := String)
      { analyze_failure := fun _ => .ok ⟨"rc", []⟩,
        check_compliance := fun _ _ => .ok ⟨"COMPLIANT", []⟩,
        process_slotify_meeting := fun _ _ => .ok "ctx",
        learn_from_interaction := fun _ => .error "learning agent raised",
        explain_meeting := fun _ => .ok "explanation" }
      ⟨some "alert-1", some "system_failure", some "critical", some "boom"⟩
      ⟨none, none, none⟩ "tok" "now" = .error "learning agent raised" :=
  alert_to_meeting_learn_error_propagates _ _ _ _ _ ⟨"rc", []⟩ ⟨"COMPLIANT", []⟩ "ctx" _
    rfl rfl (fun _ _ => rfl) (fun _ => rfl)

theorem mem_update_first {db : List AlertRow} {p : AlertRow → Bool}
    {f : AlertRow → AlertRow} {a : AlertRow}
    (h : a ∈ update_first db p f) : a ∈ db ∨ ∃ b ∈ db, a = f b := by
  induction db with
  | nil => simp [update_first] at h
  | cons x xs ih =>
    simp only [update_first] at h
    split at h
    · rcases List.mem_cons.mp h with rfl | hmem
      · exact Or.inr ⟨x, by simp, rfl⟩
      · exact Or.inl (by simp [hmem])
    · rcases List.mem_cons.mp h with rfl | hmem
      · exact Or.inl (by simp)
      · rcases ih hmem with h1 | ⟨b, hb, rfl⟩
        · exact Or.inl (by simp [h1])
        · exact Or.inr ⟨b, by simp [hb], rfl⟩

/-- C8: every alert row written or updated by the system satisfies
`meeting_created = true ↔ meeting_id` non-null: a freshly created row uses
the defaults (false, null); the webhook handler persists
`meeting_created = true` only together with the `meeting_id` captured from
the external meeting-creation result (which carries one per the §6
interface contract); and `update_meeting_info` sets both fields together,
preserving the invariant across the whole table. -/
theorem alert_invariant_spec (db : List AlertRow) (aid aty sev mid : String)
    (slotify : SlotifyMeetingResp) (m : String)
    (hresp : slotify.meeting_id = some m)
    (hdb : ∀ a ∈ db, alert_invariant a) :
    alert_invariant { alert_id := aid } ∧
    alert_invariant (webhook_alert_row aid aty sev slotify) ∧
    (∀ a ∈ alert_repo_create db (webhook_alert_row aid aty sev slotify), alert_invariant a) ∧
    (∀ a ∈ update_meeting_info db aid mid, alert_invariant a) := by
  have hweb : alert_invariant (webhook_alert_row aid aty sev slotify) := by
    simp [alert_invariant, webhook_alert_row, hresp]
  refine ⟨by simp [alert_invariant], hweb, ?_, ?_⟩
  · intro a ha
    rcases List.mem_append.mp ha with h | h
    · exact hdb a h
    · rw [List.mem_singleton] at h
      subst h
      exact hweb
  · intro a ha
    rcases mem_update_first ha with h | ⟨b, _, rfl⟩
    · exact hdb a h
    · simp [alert_invariant]

/-- C8 witness: a one-row table holding a fresh default row, updated by
`update_meeting_info`, and a webhook write with a populated external
meeting id. -/
theorem alert_invariant_spec_witness :
    alert_invariant { alert_id := "a1" } ∧
    alert_invariant (webhook_alert_row "a1" "system_failure" "critical"
      ⟨some "m1", some "https://slotify.test/m1"⟩) ∧
    (∀ a ∈ alert_repo_create [{ alert_id := "a1" }]
        (webhook_alert_row "a1" "system_failure" "critical"
          ⟨some "m1", some "https://slotify.test/m1"⟩), alert_invariant a) ∧
    (∀ a ∈ update_meeting_info [{ alert_id := "a1" }] "a1" "m1", alert_invariant a) :=
  alert_invariant_spec [{ alert_id := "a1" }] "a1" "system_failure" "critical" "m1"
    ⟨some "m1", some "https://slotify.test/m1"⟩ "m1" rfl
    (by intro a ha; rw [List.mem_singleton] at ha; subst ha; simp [alert_invariant])

theorem foldl_registered_eq_filter (agent_tasks : List AgentTask) :
    ∀ acc, agent_tasks.foldl
        (fun acc task => if task.agent_name ∈ orchestrator_agents then acc ++ [task] else acc)
        acc
      = acc ++ agent_tasks.filter (fun t => t.agent_name ∈ orchestrator_agents) := by
  induction agent_tasks with
  | nil => intro acc; simp
  | cons t rest ih =>
    intro acc
    by_cases h : t.agent_name ∈ orchestrator_agents
    · simp [List.foldl_cons, List.filter_cons, h, ih]
    · simp [List.foldl_cons, List.filter_cons, h, ih]

/-- C9 (amended): `execute_parallel_agents` returns one result per input
task whose agent name is registered, in input order — tasks naming unknown
agents are silently dropped, receiving no error marker — and each included
task whose execution fails contributes an inline error marker in its
position instead of aborting the rest of the batch. -/
theorem execute_parallel_agents_spec (run : AgentTask → Except String String)
    (agent_tasks : List AgentTask) :
    execute_parallel_agents run agent_tasks =
      gather_results ((agent_tasks.filter
        (fun t => t.agent_name ∈ orchestrator_agents)).map run) ∧
    (execute_parallel_agents run agent_tasks).length =
      (agent_tasks.filter (fun t => t.agent_name ∈ orchestrator_agents)).length ∧
    (∀ (i : ℕ) (e : String),
      ((agent_tasks.filter (fun t => t.agent_name ∈ orchestrator_agents)).map run)[i]?
          = some (Except.error e) →
      (execute_parallel_agents run agent_tasks)[i]?
          = some (ParallelResult.errorMarker e)) := by
  have hmain : execute_parallel_agents run agent_tasks =
      gather_results ((agent_tasks.filter
        (fun t => t.agent_name ∈ orchestrator_agents)).map run) := by
    unfold execute_parallel_agents
    rw [foldl_registered_eq_filter agent_tasks []]
    rw [List.nil_append]
  refine ⟨hmain, ?_, ?_⟩
  · rw [hmain]
    simp [gather_results]
  · intro i e hi
    rw [hmain]
    unfold gather_results
    rw [List.getElem?_map, hi]
    rfl

/-- C9 witness: a three-task batch — a failing registered task, an
unregistered task, and a succeeding registered task. -/
theorem execute_parallel_agents_spec_witness :
    execute_parallel_agents
      (fun t => if t.agent_name = "meeting_context" then .error "boom" else .ok "fine")
      [⟨"meeting_context", "a"⟩, ⟨"unknown", "b"⟩, ⟨"root_cause_analysis", "c"⟩]
      = gather_results
        (([(⟨"meeting_context", "a"⟩ : AgentTask), ⟨"unknown", "b"⟩,
           ⟨"root_cause_analysis", "c"⟩].filter
            (fun t => t.agent_name ∈ orchestrator_agents)).map
          (fun t => if t.agent_name = "meeting_context" then .error "boom" else .ok "fine")) :=
  (execute_parallel_agents_spec
    (fun t => if t.agent_name = "meeting_context" then .error "boom" else .ok "fine")
    [⟨"meeting_context", "a"⟩, ⟨"unknown", "b"⟩, ⟨"root_cause_analysis", "c"⟩]).1

/-- C9 counterexample: a batch consisting of one task naming an unregistered
agent yields an empty result list — the task is dropped, not represented by
an inline error marker, so the output does not have one entry per input
task. -/
theorem execute_parallel_agents_drops_unknown :
    execute_parallel_agents (fun _ => .ok "done") [⟨"nonexistent_agent", "d"⟩] = [] ∧
    (execute_parallel_agents (fun _ => .ok "done") [⟨"nonexistent_agent", "d"⟩]).length
      ≠ ([(⟨"nonexistent_agent", "d"⟩ : AgentTask)]).length := by
  constructor
  · decide
  · decide

/-- C10 witness: the amended statement applied to the concrete rejected call
of the counterexample input. -/
theorem rate_limit_reject_no_record_witness :
    (rate_limit_check (fun k => if k = "9.9.9.9" then [0, 50] else []) "9.9.9.9"
        1 60 100 false).2 "9.9.9.9"
      = ((fun k => if k = "9.9.9.9" then [0, 50] else ([] : List ℤ)) "9.9.9.9").filter
          (fun ts => (100 : ℤ) - ts < 60) ∧
    (∀ k, k ≠ "9.9.9.9" →
      (rate_limit_check (fun k => if k = "9.9.9.9" then [0, 50] else []) "9.9.9.9"
          1 60 100 false).2 k
        = (fun k => if k = "9.9.9.9" then [0, 50] else ([] : List ℤ)) k) ∧
    (∀ t2 : ℤ, (100 : ℤ) ≤ t2 →
      ((rate_limit_check (fun k => if k = "9.9.9.9" then [0, 50] else []) "9.9.9.9"
          1 60 100 false).2 "9.9.9.9").filter (fun ts => t2 - ts < 60)
        = ((fun k => if k = "9.9.9.9" then [0, 50] else ([] : List ℤ)) "9.9.9.9").filter
            (fun ts => t2 - ts < 60)) :=
  rate_limit_reject_no_record (fun k => if k = "9.9.9.9" then [0, 50] else []) "9.9.9.9"
    1 60 100 false ⟨429, 10, 10⟩
    (by simp [rate_limit_check, get_requests, list_min])

end ChainSync
